import Mathlib

set_option maxRecDepth 8000

/-!
Shallow embedding of the gdns DNS packet parser (src/gdns.go).

The Go program parses a DNS message held in a fixed 512-byte buffer
(`BytePacketBuffer`) with a mutable cursor (`pos`, a Go `int`).  We model
the buffer as a `List Nat` of byte values together with an `Int` cursor,
and every fallible Go method as a function returning
`Except Err α × BytePacketBuffer` (the Go methods mutate the receiver in
place and return `(value, error)`; the returned buffer is the mutated
receiver, also on the error path).

Go runtime panics (out-of-range array or slicing indexing) are modelled by the
distinguished error `Err.outOfRange`; the fuel exhaustion marker
`Err.outOfFuel` is unreachable (proved below) and only makes the
name-decoding loop structurally recursive.
-/

/-- Error outcomes of the embedded operations.
`endOfBuffer` is Go's `fmt.Errorf("end of buffer")` (Read/Get),
`endOfBufferRange` is `fmt.Errorf("End of buffer")` (GetRange),
`jumpLimitExceeded` is `fmt.Errorf("limit of 5 jumps exceeded")`,
`outOfRange` marks a Go runtime panic from out-of-range indexing, and
`outOfFuel` is the (unreachable) fuel marker of the name-decoding loop. -/
inductive Err where
  | endOfBuffer
  | endOfBufferRange
  | jumpLimitExceeded
  | outOfRange
  | outOfFuel
deriving DecidableEq, Repr

instance {ε α : Type} [DecidableEq ε] [DecidableEq α] : DecidableEq (Except ε α) := by
  intro a b
  cases a <;> cases b
  case error.error e e' =>
    exact if h : e = e' then .isTrue (by rw [h]) else .isFalse (fun c => h (by injection c))
  case error.ok e v => exact .isFalse (fun c => by injection c)
  case ok.error v e => exact .isFalse (fun c => by injection c)
  case ok.ok v v' =>
    exact if h : v = v' then .isTrue (by rw [h]) else .isFalse (fun c => h (by injection c))

/-- `BytePacketBuffer`: the 512-byte DNS packet buffer with its cursor.
`buf` models the Go array `buf [512]byte` (byte values as `Nat`), `pos`
models the Go `int` field `pos`. -/
structure BytePacketBuffer where
  buf : List Nat
  pos : Int
deriving DecidableEq, Repr

/-- Indexing a Go array: a negative or too-large index is a runtime
panic, modelled as `none`. -/
def getByte (buf : List Nat) (i : Int) : Option Nat :=
  if i < 0 then none else buf.get? i.toNat

/-- `b.buf[start : start+len]` for in-range `start`, `len`. -/
def sliceBuf (buf : List Nat) (start len : Nat) : List Nat :=
  (buf.drop start).take len

/-- Go `string(bytes)` for a list of byte values (ASCII reading). -/
def strOfBytes (bs : List Nat) : String :=
  String.mk (bs.map (fun b => Char.ofNat b))

/-- `NewBytePacketBuffer`: zero-filled buffer, cursor 0. -/
def newBytePacketBuffer : BytePacketBuffer :=
  { buf := List.replicate 512 0, pos := 0 }

/-- `Step`: `b.pos += steps; return nil` (never fails, no bound check). -/
def step (b : BytePacketBuffer) (steps : Int) : Except Err Unit × BytePacketBuffer :=
  (.ok (), { b with pos := b.pos + steps })

/-- `Seek`: `b.pos = pos; return nil` (never fails, no bound check). -/
def seek (b : BytePacketBuffer) (p : Int) : Except Err Unit × BytePacketBuffer :=
  (.ok (), { b with pos := p })

/-- `Read` (named `readU8` here; plain `read` clashes with Mathlib): fail if `b.pos >= 512`, else return `b.buf[b.pos]` and advance
the cursor by one. -/
def readU8 (b : BytePacketBuffer) : Except Err Nat × BytePacketBuffer :=
  if 512 ≤ b.pos then (.error .endOfBuffer, b)
  else
    match getByte b.buf b.pos with
    | none => (.error .outOfRange, b)
    | some v => (.ok v, { b with pos := b.pos + 1 })

/-- The pure part of `Get`: the bound check is against the cursor `bpos`,
NOT against the requested index `p` (exactly as in the source); the
subsequent `b.buf[pos]` indexing can therefore panic. -/
def getL (buf : List Nat) (bpos p : Int) : Except Err Nat :=
  if 512 ≤ bpos then .error .endOfBuffer
  else
    match getByte buf p with
    | none => .error .outOfRange
    | some v => .ok v

/-- `Get`: read the byte at absolute index `p` without moving the cursor. -/
def get (b : BytePacketBuffer) (p : Int) : Except Err Nat × BytePacketBuffer :=
  (getL b.buf b.pos p, b)

/-- The pure part of `GetRange`: fail if `start+len >= 512`; the cursor is
never consulted.  Negative `start` or `len` would panic in Go slicing. -/
def getRangeL (buf : List Nat) (start len : Int) : Except Err (List Nat) :=
  if 512 ≤ start + len then .error .endOfBufferRange
  else if start < 0 ∨ len < 0 then .error .outOfRange
  else .ok (sliceBuf buf start.toNat len.toNat)

/-- `GetRange`: `len` bytes starting at `start`, cursor untouched. -/
def getRange (b : BytePacketBuffer) (start len : Int) :
    Except Err (List Nat) × BytePacketBuffer :=
  (getRangeL b.buf start len, b)

/-- `ReadU16`: two `Read`s (`readU8`) combined big-endian. -/
def readU16 (b : BytePacketBuffer) : Except Err Nat × BytePacketBuffer :=
  match readU8 b with
  | (.error e, b1) => (.error e, b1)
  | (.ok high, b1) =>
    match readU8 b1 with
    | (.error e, b2) => (.error e, b2)
    | (.ok low, b2) => (.ok ((high <<< 8) ||| low), b2)

/-- `ReadU16_Query`: same byte-level behaviour as `ReadU16` (the Go source
duplicates the body, returning the value as a `QueryType`). -/
def readU16Query (b : BytePacketBuffer) : Except Err Nat × BytePacketBuffer :=
  readU16 b

/-- `ReadU32`: four `Read`s combined big-endian. -/
def readU32 (b : BytePacketBuffer) : Except Err Nat × BytePacketBuffer :=
  match readU8 b with
  | (.error e, b1) => (.error e, b1)
  | (.ok v1, b1) =>
    match readU8 b1 with
    | (.error e, b2) => (.error e, b2)
    | (.ok v2, b2) =>
      match readU8 b2 with
      | (.error e, b3) => (.error e, b3)
      | (.ok v3, b3) =>
        match readU8 b3 with
        | (.error e, b4) => (.error e, b4)
        | (.ok v4, b4) =>
          (.ok ((v1 <<< 24) ||| (v2 <<< 16) ||| (v3 <<< 8) ||| v4), b4)

/-- The loop of `Read_qname`.  State: `bpos` is the buffer's real cursor
(mutated only by the `Seek`s of the source), `pos` the local read
position, `acc` the accumulated output string, `delim` the label
separator (`""` before the first label, `"."` afterwards), `jumped`
whether a compression jump has occurred, `jp` the jump counter.
`fuel` only bounds the recursion; `Err.outOfFuel` is proved unreachable. -/
def readQnameLoop (buf : List Nat) :
    Nat → Int → Int → String → String → Bool → Nat → Except Err String × Int
  | 0, bpos, _, _, _, _, _ => (.error .outOfFuel, bpos)
  | fuel + 1, bpos, pos, acc, delim, jumped, jp =>
    if 5 < jp then (.error .jumpLimitExceeded, bpos)
    else
      match getL buf bpos pos with
      | .error e => (.error e, bpos)
      | .ok len =>
        if len &&& 192 = 192 then
          -- compression pointer: Seek(pos+2) if this is the first jump,
          -- then fetch the low pointer byte and jump.
          match getL buf (if jumped then bpos else pos + 2) (pos + 1) with
          | .error e => (.error e, if jumped then bpos else pos + 2)
          | .ok off =>
            readQnameLoop buf fuel (if jumped then bpos else pos + 2)
              (((len ^^^ 192) <<< 8) ||| off : Nat) acc delim true (jp + 1)
        else
          if len = 0 then (.ok acc, if jumped then bpos else pos + 1)
          else
            match getRangeL buf (pos + 1) (len : Int) with
            | .error e => (.error e, bpos)
            | .ok bs =>
              readQnameLoop buf fuel bpos ((pos + 1) + (len : Int))
                (acc ++ delim ++ strOfBytes bs) "." jumped jp

/-- `Read_qname`: decode a (possibly compressed) DNS name starting at the
buffer's cursor, appending to `init` (the Go `*outstr`).  The returned
buffer carries the real cursor as left by the source's `Seek` calls. -/
def readQname (b : BytePacketBuffer) (init : String) :
    Except Err String × BytePacketBuffer :=
  let r := readQnameLoop b.buf 4000 b.pos b.pos init "" false 0
  (r.1, { b with pos := r.2 })

/-- `ResultCode` enumeration. -/
inductive ResultCode where
  | NOERROR
  | FORMERR
  | SERVFAIL
  | NXDOMAIN
  | NOTIMP
  | REFUSED
deriving DecidableEq, Repr

/-- `ResultCodeFromNum`: 1-5 map to their codes, everything else to NOERROR. -/
def resultCodeFromNum (num : Nat) : ResultCode :=
  match num with
  | 1 => .FORMERR
  | 2 => .SERVFAIL
  | 3 => .NXDOMAIN
  | 4 => .NOTIMP
  | 5 => .REFUSED
  | _ => .NOERROR

/-- `DnsHeader`. -/
structure DnsHeader where
  id : Nat
  recursionDesired : Bool
  truncatedMessage : Bool
  authoritativeAnswer : Bool
  opcode : Nat
  response : Bool
  resCode : ResultCode
  checkingDisabled : Bool
  authedData : Bool
  z : Bool
  recursionAvailable : Bool
  questions : Nat
  answers : Nat
  authoritativeEntries : Nat
  resourceEntries : Nat
deriving DecidableEq, Repr

/-- `NewDnsHeader`: the zero header. -/
def newDnsHeader : DnsHeader :=
  { id := 0, recursionDesired := false, truncatedMessage := false,
    authoritativeAnswer := false, opcode := 0, response := false,
    resCode := .NOERROR, checkingDisabled := false, authedData := false,
    z := false, recursionAvailable := false, questions := 0, answers := 0,
    authoritativeEntries := 0, resourceEntries := 0 }

/-- `DnsHeader.Read`: id, flag word (decoded bit-by-bit with the exact
shift amounts of the source), then the four counts. -/
def headerRead (b : BytePacketBuffer) : Except Err DnsHeader × BytePacketBuffer :=
  match readU16 b with
  | (.error e, b1) => (.error e, b1)
  | (.ok idv, b1) =>
    match readU16 b1 with
    | (.error e, b2) => (.error e, b2)
    | (.ok flags, b2) =>
      match readU16 b2 with
      | (.error e, b3) => (.error e, b3)
      | (.ok qs, b3) =>
        match readU16 b3 with
        | (.error e, b4) => (.error e, b4)
        | (.ok ans, b4) =>
          match readU16 b4 with
          | (.error e, b5) => (.error e, b5)
          | (.ok auth, b5) =>
            match readU16 b5 with
            | (.error e, b6) => (.error e, b6)
            | (.ok res, b6) =>
              (.ok { id := idv,
                     recursionDesired := ((flags >>> 8) &&& 1) != 0,
                     truncatedMessage := ((flags >>> 9) &&& 1) != 0,
                     authoritativeAnswer := ((flags >>> 10) &&& 1) != 0,
                     opcode := (flags >>> 11) &&& 15,
                     response := ((flags >>> 15) &&& 1) != 0,
                     resCode := resultCodeFromNum (flags &&& 15),
                     checkingDisabled := ((flags >>> 12) &&& 1) != 0,
                     authedData := ((flags >>> 13) &&& 1) != 0,
                     z := ((flags >>> 14) &&& 1) != 0,
                     recursionAvailable := ((flags >>> 7) &&& 1) != 0,
                     questions := qs, answers := ans,
                     authoritativeEntries := auth, resourceEntries := res }, b6)

/-- `DnsQuestion`. -/
structure DnsQuestion where
  name : String
  qtype : Nat
  qclass : Nat
deriving DecidableEq, Repr

/-- `DnsQuestion.Read`: name (appended to the empty string of a fresh
question, as in `main`), query type, query class. -/
def questionRead (b : BytePacketBuffer) : Except Err DnsQuestion × BytePacketBuffer :=
  match readQname b "" with
  | (.error e, b1) => (.error e, b1)
  | (.ok name, b1) =>
    match readU16 b1 with
    | (.error e, b2) => (.error e, b2)
    | (.ok qt, b2) =>
      match readU16 b2 with
      | (.error e, b3) => (.error e, b3)
      | (.ok qc, b3) => (.ok { name := name, qtype := qt, qclass := qc }, b3)

/-- `DnsRecord`.  `addr` abstracts the Go `net.IP` (the raw address bytes;
`none` is Go's nil IP), `cls` is the Go field `Class` (a Lean keyword). -/
structure DnsRecord where
  name : String
  qtype : Nat
  cls : Nat
  ttl : Nat
  dataLen : Nat
  addr : Option (List Nat)
  host : String
  priority : Nat
deriving DecidableEq, Repr

/-- `n` consecutive `Read`s, collecting the bytes (the source's
`for i := 0; i < n; i++ { buffer.Read() }` loops for A/AAAA payloads). -/
def readN : Nat → BytePacketBuffer → Except Err (List Nat) × BytePacketBuffer
  | 0, b => (.ok [], b)
  | n + 1, b =>
    match readU8 b with
    | (.error e, b1) => (.error e, b1)
    | (.ok v, b1) =>
      match readN n b1 with
      | (.error e, b2) => (.error e, b2)
      | (.ok vs, b2) => (.ok (v :: vs), b2)

/-- The common prefix of `DnsRecordRead`: name, type (`ReadU16_Query`),
class, TTL, data length, in that order; the payload fields keep the Go
zero values (`var rec DnsRecord`). -/
def recordPrefixRead (b : BytePacketBuffer) : Except Err DnsRecord × BytePacketBuffer :=
  match readQname b "" with
  | (.error e, b1) => (.error e, b1)
  | (.ok name, b1) =>
    match readU16Query b1 with
    | (.error e, b2) => (.error e, b2)
    | (.ok qt, b2) =>
      match readU16 b2 with
      | (.error e, b3) => (.error e, b3)
      | (.ok cl, b3) =>
        match readU32 b3 with
        | (.error e, b4) => (.error e, b4)
        | (.ok ttl, b4) =>
          match readU16 b4 with
          | (.error e, b5) => (.error e, b5)
          | (.ok dl, b5) =>
            (.ok { name := name, qtype := qt, cls := cl, ttl := ttl, dataLen := dl,
                   addr := none, host := "", priority := 0 }, b5)

/-- `DnsRecordRead`: common prefix, then the switch on the query type
(`QTYPE_A = 1`, `QTYPE_AAAA = 28`, `QTYPE_CNAME = 5`, `QTYPE_MX = 15`;
any other type consumes nothing further). -/
def dnsRecordRead (b : BytePacketBuffer) : Except Err DnsRecord × BytePacketBuffer :=
  match recordPrefixRead b with
  | (.error e, b1) => (.error e, b1)
  | (.ok rec, b1) =>
    if rec.qtype = 1 then
      match readN 4 b1 with
      | (.error e, b2) => (.error e, b2)
      | (.ok addr4, b2) => (.ok { rec with addr := some addr4 }, b2)
    else if rec.qtype = 28 then
      match readN 16 b1 with
      | (.error e, b2) => (.error e, b2)
      | (.ok addr16, b2) => (.ok { rec with addr := some addr16 }, b2)
    else if rec.qtype = 5 then
      match readQname b1 "" with
      | (.error e, b2) => (.error e, b2)
      | (.ok host, b2) => (.ok { rec with host := host }, b2)
    else if rec.qtype = 15 then
      match readU16 b1 with
      | (.error e, b2) => (.error e, b2)
      | (.ok prio, b2) =>
        match readQname b2 "" with
        | (.error e, b3) => (.error e, b3)
        | (.ok host, b3) => (.ok { rec with priority := prio, host := host }, b3)
    else (.ok rec, b1)

/-- Recognizer for the fuel marker (used to state termination positively). -/
def isOutOfFuel : Except Err String → Bool
  | .error .outOfFuel => true
  | _ => false

-- Measure definitions for the termination argument, and concrete
-- packets used by the claim theorems.

/-- Remaining room in the 512-byte region ahead of a local read position
(0 when the position is outside the region). -/
def posRem (p : Int) : Nat := if p < 0 then 0 else (512 - p).toNat

/-- Termination measure of the name-decoding loop: jumps remaining
(weighted) plus room ahead of the local position. -/
def qnameMeasure (jp : Nat) (pos : Int) : Nat := (6 - jp) * 520 + posRem pos

/-- All-zero 512-byte packet buffer content. -/
def zeros512 : List Nat := List.replicate 512 0

/-- Wire encoding of the name `{3}www{7}example{3}com{0}`. -/
def c5name : List Nat :=
  [3, 119, 119, 119, 7, 101, 120, 97, 109, 112, 108, 101, 3, 99, 111, 109, 0]

/-- `c5name` at offset 0, zero-padded to 512 bytes. -/
def c5buf : List Nat := c5name ++ List.replicate 495 0

/-- `c5name` at offset 50, zero-padded to 512 bytes. -/
def c5buf2 : List Nat := List.replicate 50 0 ++ c5name ++ List.replicate 445 0

/-- Packet whose header flag word is `0x0070` (bits 4, 5 and 6 set). -/
def c2buf : List Nat := 0 :: 0 :: 0 :: 112 :: List.replicate 508 0

/-- Packet whose header flag word is `0x7000` (bits 12, 13 and 14 set). -/
def c2buf2 : List Nat := 0 :: 0 :: 112 :: 0 :: List.replicate 508 0

/-- NS record packet (type 2, not handled by the decoder's switch): name
`{1}a{0}`, type 2, class 1, TTL 60, data length 4, then 4 rdata bytes. -/
def c7buf : List Nat :=
  [1, 97, 0, 0, 2, 0, 1, 0, 0, 0, 60, 0, 4, 9, 9, 9, 9] ++ List.replicate 495 0

/-- Packet declaring 2 questions (header counts) but encoding only one
question (`{1}a{0}`, type 1, class 1); the rest is zero padding. -/
def c8buf : List Nat :=
  [0, 0, 0, 0, 0, 2, 0, 0, 0, 0, 0, 0, 1, 97, 0, 0, 1, 0, 1] ++ List.replicate 493 0

/-- Packet with a compression pointer at offset 0 targeting offset 20,
where the name `{3}abc{0}` is encoded. -/
def c3buf : List Nat :=
  192 :: 20 :: List.replicate 18 0 ++ [3, 97, 98, 99, 0] ++ List.replicate 487 0

/-- Packet with a 6-pointer chain: pointers at offsets 0,2,4,6,8,10, each
targeting the next. -/
def cbuf6 : List Nat :=
  [192, 2, 192, 4, 192, 6, 192, 8, 192, 10, 192, 12] ++ List.replicate 500 0

/-- Packet with a 5-pointer chain (offsets 0,2,4,6,8) whose final target
(offset 12) is the plain name `{1}a{0}`. -/
def cbuf5 : List Nat :=
  [192, 2, 192, 4, 192, 6, 192, 8, 192, 12, 0, 0, 1, 97, 0] ++ List.replicate 497 0

-- Helper lemmas about the buffer primitives.

theorem getL_ok_iff (buf : List Nat) (bp p : Int) (v : Nat) :
    getL buf bp p = .ok v ↔ bp < 512 ∧ getByte buf p = some v := by
  unfold getL
  by_cases h : 512 ≤ bp
  · simp only [if_pos h]
    constructor
    · intro hc; exact absurd hc (by simp)
    · intro hc; omega
  · simp only [if_neg h]
    cases hg : getByte buf p with
    | none =>
      constructor
      · intro hc; exact absurd hc (by simp)
      · intro hc; exact absurd hc.2 (by simp)
    | some w =>
      constructor
      · intro hc
        refine ⟨by omega, ?_⟩
        injection hc with hv
        rw [hv]
      · intro hc
        injection hc.2 with hv
        rw [hv]

theorem getByte_some_nonneg {buf : List Nat} {p : Int} {v : Nat}
    (h : getByte buf p = some v) : 0 ≤ p := by
  unfold getByte at h
  by_cases hp : p < 0
  · rw [if_pos hp] at h; exact absurd h (by simp)
  · omega

theorem getRangeL_ok {buf : List Nat} {s l : Int} {bs : List Nat}
    (h : getRangeL buf s l = .ok bs) : s + l < 512 ∧ 0 ≤ s ∧ 0 ≤ l := by
  unfold getRangeL at h
  by_cases h1 : 512 ≤ s + l
  · rw [if_pos h1] at h; exact absurd h (by simp)
  · rw [if_neg h1] at h
    by_cases h2 : s < 0 ∨ l < 0
    · rw [if_pos h2] at h; exact absurd h (by simp)
    · push_neg at h2
      exact ⟨by omega, h2.1, h2.2⟩

-- Helper lemmas about the name-decoding loop.

/-- Once a jump has occurred, the loop never changes the real cursor again
(every outcome, success or error, carries the incoming `bpos`). -/
theorem readQnameLoop_jumped_snd (buf : List Nat) :
    ∀ fuel bpos pos acc delim jp,
      (readQnameLoop buf fuel bpos pos acc delim true jp).2 = bpos := by
  intro fuel
  induction fuel with
  | zero => intro bpos pos acc delim jp; rfl
  | succ n ih =>
    intro bpos pos acc delim jp
    simp only [readQnameLoop, if_true]
    split
    · rfl
    · cases hg : getL buf bpos pos with
      | error e => simp
      | ok len =>
        simp only []
        split
        · cases hg2 : getL buf bpos (pos + 1) with
          | error e => simp
          | ok off => simp only []; exact ih ..
        · split
          · rfl
          · cases hr : getRangeL buf (pos + 1) (len : Int) with
            | error e => simp
            | ok bs => simp only []; exact ih ..

/-- The decoded text depends only on the byte content and the local read
position: two successful runs of the loop from the same `pos` (with any
cursors, jump flags and jump budgets) produce the same string. -/
theorem readQnameLoop_str_eq (buf : List Nat) :
    ∀ fuel1 fuel2 b1 b2 jm1 jm2 j1 j2 pos acc delim s1 s2 r1 r2,
      readQnameLoop buf fuel1 b1 pos acc delim jm1 j1 = (.ok s1, r1) →
      readQnameLoop buf fuel2 b2 pos acc delim jm2 j2 = (.ok s2, r2) →
      s1 = s2 := by
  intro fuel1
  induction fuel1 with
  | zero =>
    intro fuel2 b1 b2 jm1 jm2 j1 j2 pos acc delim s1 s2 r1 r2 h1 h2
    simp only [readQnameLoop] at h1
    exact absurd (congrArg Prod.fst h1) (by simp)
  | succ n ih =>
    intro fuel2 b1 b2 jm1 jm2 j1 j2 pos acc delim s1 s2 r1 r2 h1 h2
    cases fuel2 with
    | zero =>
      simp only [readQnameLoop] at h2
      exact absurd (congrArg Prod.fst h2) (by simp)
    | succ m =>
      simp only [readQnameLoop] at h1 h2
      by_cases hj1 : 5 < j1
      · rw [if_pos hj1] at h1
        exact absurd (congrArg Prod.fst h1) (by simp)
      rw [if_neg hj1] at h1
      by_cases hj2 : 5 < j2
      · rw [if_pos hj2] at h2
        exact absurd (congrArg Prod.fst h2) (by simp)
      rw [if_neg hj2] at h2
      cases hg1 : getL buf b1 pos with
      | error e =>
        simp only [hg1] at h1
        exact absurd (congrArg Prod.fst h1) (by simp)
      | ok len1 =>
      cases hg2 : getL buf b2 pos with
      | error e =>
        simp only [hg2] at h2
        exact absurd (congrArg Prod.fst h2) (by simp)
      | ok len2 =>
      simp only [hg1] at h1
      simp only [hg2] at h2
      have hlen : len1 = len2 := by
        have e1 := (getL_ok_iff buf b1 pos len1).1 hg1
        have e2 := (getL_ok_iff buf b2 pos len2).1 hg2
        rw [e1.2] at e2
        injection e2.2
      subst hlen
      by_cases hptr : len1 &&& 192 = 192
      · rw [if_pos hptr] at h1 h2
        cases hq1 : getL buf (if jm1 then b1 else pos + 2) (pos + 1) with
        | error e =>
          simp only [hq1] at h1
          exact absurd (congrArg Prod.fst h1) (by simp)
        | ok off1 =>
        cases hq2 : getL buf (if jm2 then b2 else pos + 2) (pos + 1) with
        | error e =>
          simp only [hq2] at h2
          exact absurd (congrArg Prod.fst h2) (by simp)
        | ok off2 =>
        simp only [hq1] at h1
        simp only [hq2] at h2
        have hoff : off1 = off2 := by
          have e1 := (getL_ok_iff buf _ _ off1).1 hq1
          have e2 := (getL_ok_iff buf _ _ off2).1 hq2
          rw [e1.2] at e2
          injection e2.2
        subst hoff
        exact ih m _ _ _ _ _ _ _ _ _ _ _ _ _ h1 h2
      · rw [if_neg hptr] at h1 h2
        by_cases hz : len1 = 0
        · rw [if_pos hz] at h1 h2
          have e1 := congrArg Prod.fst h1
          have e2 := congrArg Prod.fst h2
          simp only [Prod.fst] at e1 e2
          injection e1 with e1'
          injection e2 with e2'
          rw [← e1', ← e2']
        · rw [if_neg hz] at h1 h2
          cases hr : getRangeL buf (pos + 1) (len1 : Int) with
          | error e =>
            simp only [hr] at h1
            exact absurd (congrArg Prod.fst h1) (by simp)
          | ok bs =>
          simp only [hr] at h1 h2
          exact ih m _ _ _ _ _ _ _ _ _ _ _ _ _ h1 h2

/-- `Get` only ever fails with the end-of-buffer error or an indexing
panic. -/
theorem getL_error {buf : List Nat} {bp p : Int} {e : Err}
    (h : getL buf bp p = .error e) : e = .endOfBuffer ∨ e = .outOfRange := by
  unfold getL at h
  split at h
  · left; injection h with h'; exact h'.symm
  · split at h
    · right; injection h with h'; exact h'.symm
    · exact absurd h (by simp)

/-- `GetRange` only ever fails with the end-of-buffer error or an indexing
panic. -/
theorem getRangeL_error {buf : List Nat} {s l : Int} {e : Err}
    (h : getRangeL buf s l = .error e) : e = .endOfBufferRange ∨ e = .outOfRange := by
  unfold getRangeL at h
  split at h
  · left; injection h with h'; exact h'.symm
  · split at h
    · right; injection h with h'; exact h'.symm
    · exact absurd h (by simp)

theorem isOutOfFuel_error {e : Err} (h : e ≠ .outOfFuel) :
    isOutOfFuel (.error e) = false := by
  cases e
  · rfl
  · rfl
  · rfl
  · rfl
  · exact absurd rfl h

theorem posRem_le (p : Int) : posRem p ≤ 512 := by
  unfold posRem
  split
  · omega
  · omega

/-- With fuel above the measure, the loop never runs out of fuel: the
source loop terminates on every buffer content and position. -/
theorem readQnameLoop_no_outOfFuel (buf : List Nat) :
    ∀ fuel bpos pos acc delim jumped jp, qnameMeasure jp pos < fuel →
      isOutOfFuel (readQnameLoop buf fuel bpos pos acc delim jumped jp).1 = false := by
  intro fuel
  induction fuel with
  | zero =>
    intro bpos pos acc delim jumped jp hm
    exact absurd hm (Nat.not_lt_zero _)
  | succ n ih =>
    intro bpos pos acc delim jumped jp hm
    simp only [readQnameLoop]
    by_cases hj : 5 < jp
    · rw [if_pos hj]; rfl
    rw [if_neg hj]
    cases hg : getL buf bpos pos with
    | error e =>
      simp only []
      exact isOutOfFuel_error (by rcases getL_error hg with h | h <;> simp [h])
    | ok len =>
      simp only []
      by_cases hptr : len &&& 192 = 192
      · rw [if_pos hptr]
        cases hq : getL buf (if jumped then bpos else pos + 2) (pos + 1) with
        | error e =>
          simp only []
          exact isOutOfFuel_error (by rcases getL_error hq with h | h <;> simp [h])
        | ok off =>
          simp only []
          apply ih
          have h1 : posRem (((len ^^^ 192) <<< 8) ||| off : Nat) ≤ 512 := posRem_le _
          have h2 : jp ≤ 5 := by omega
          unfold qnameMeasure at hm ⊢
          have h3 : (6 - (jp + 1)) * 520 + 520 = (6 - jp) * 520 := by
            have h4 : 6 - jp = (6 - (jp + 1)) + 1 := by omega
            rw [h4]; ring
          omega
      · rw [if_neg hptr]
        by_cases hz : len = 0
        · rw [if_pos hz]; rfl
        rw [if_neg hz]
        cases hr : getRangeL buf (pos + 1) (len : Int) with
        | error e =>
          simp only []
          exact isOutOfFuel_error (by rcases getRangeL_error hr with h | h <;> simp [h])
        | ok bs =>
          simp only []
          apply ih
          have hb := getRangeL_ok hr
          have hpos : 0 ≤ pos := by
            have h5 := (getL_ok_iff buf bpos pos len).1 hg
            exact getByte_some_nonneg h5.2
          have hlen : 1 ≤ (len : Int) := by
            have h6 : len ≠ 0 := hz
            omega
          unfold qnameMeasure posRem at hm ⊢
          have hub : pos + 1 + (len : Int) < 512 := hb.1
          rw [if_neg (by omega : ¬pos < 0)] at hm
          rw [if_neg (by omega : ¬pos + 1 + (len : Int) < 0)]
          omega

/-- One loop iteration at a compression pointer when no jump has occurred
yet: the real cursor is advanced to `pos + 2` (the source's only `Seek`
past a pointer) and the loop continues at the pointer target. -/
theorem readQnameLoop_jump_first (buf : List Nat) (fuel fuel' : Nat)
    (hf : fuel = fuel' + 1) (bpos pos : Int) (acc delim : String) (jp : Nat)
    (l o : Nat) (hjp : jp ≤ 5) (hb : bpos < 512)
    (hgB : getByte buf pos = some l) (hl : l &&& 192 = 192)
    (hb2 : pos + 2 < 512) (hg2 : getByte buf (pos + 1) = some o) :
    readQnameLoop buf fuel bpos pos acc delim false jp
      = readQnameLoop buf fuel' (pos + 2) (((l ^^^ 192) <<< 8) ||| o : Nat)
          acc delim true (jp + 1) := by
  subst hf
  have e1 : getL buf bpos pos = .ok l := (getL_ok_iff buf bpos pos l).2 ⟨hb, hgB⟩
  have e2 : getL buf (pos + 2) (pos + 1) = .ok o :=
    (getL_ok_iff buf (pos + 2) (pos + 1) o).2 ⟨hb2, hg2⟩
  simp only [readQnameLoop, if_neg (by omega : ¬5 < jp), e1, if_pos hl,
    Bool.false_eq_true, if_false, e2]

/-- One loop iteration at a compression pointer after a jump has already
occurred: the real cursor is untouched. -/
theorem readQnameLoop_jump_next (buf : List Nat) (fuel fuel' : Nat)
    (hf : fuel = fuel' + 1) (bpos pos : Int) (acc delim : String) (jp : Nat)
    (l o : Nat) (hjp : jp ≤ 5) (hb : bpos < 512)
    (hgB : getByte buf pos = some l) (hl : l &&& 192 = 192)
    (hg2 : getByte buf (pos + 1) = some o) :
    readQnameLoop buf fuel bpos pos acc delim true jp
      = readQnameLoop buf fuel' bpos (((l ^^^ 192) <<< 8) ||| o : Nat)
          acc delim true (jp + 1) := by
  subst hf
  have e1 : getL buf bpos pos = .ok l := (getL_ok_iff buf bpos pos l).2 ⟨hb, hgB⟩
  have e2 : getL buf bpos (pos + 1) = .ok o :=
    (getL_ok_iff buf bpos (pos + 1) o).2 ⟨hb, hg2⟩
  simp only [readQnameLoop, if_neg (by omega : ¬5 < jp), e1, if_pos hl,
    if_true, e2]

/-- The loop fails with the jump-limit error as soon as the jump counter
exceeds 5, before reading anything. -/
theorem readQnameLoop_limit (buf : List Nat) (fuel fuel' : Nat)
    (hf : fuel = fuel' + 1) (bpos pos : Int) (acc delim : String)
    (jumped : Bool) (jp : Nat) (hjp : 5 < jp) :
    readQnameLoop buf fuel bpos pos acc delim jumped jp
      = (.error .jumpLimitExceeded, bpos) := by
  subst hf
  simp only [readQnameLoop, if_pos hjp]

/-- Successful `Read`: the cursor was in range and advances by one. -/
theorem readU8_ok {b : BytePacketBuffer} {v : Nat} {b' : BytePacketBuffer}
    (h : readU8 b = (.ok v, b')) :
    b.pos < 512 ∧ b' = { b with pos := b.pos + 1 } := by
  unfold readU8 at h
  split at h
  · exact absurd (congrArg Prod.fst h) (by simp)
  · split at h
    · exact absurd (congrArg Prod.fst h) (by simp)
    · injection h with h1 h2
      exact ⟨by omega, h2.symm⟩

/-- Failed `Read`: the buffer (cursor included) is unchanged. -/
theorem readU8_error {b : BytePacketBuffer} {e : Err} {b' : BytePacketBuffer}
    (h : readU8 b = (.error e, b')) : b' = b := by
  unfold readU8 at h
  split at h
  · injection h with h1 h2
    exact h2.symm
  · split at h
    · injection h with h1 h2
      exact h2.symm
    · exact absurd (congrArg Prod.fst h) (by simp)

/-- Successful `ReadU16`: the final cursor is within `[0,512]`
(it is the second `Read`'s in-range precursor plus one). -/
theorem readU16_ok_pos {b : BytePacketBuffer} {v : Nat} {b' : BytePacketBuffer}
    (h : readU16 b = (.ok v, b')) : b'.pos ≤ 512 := by
  unfold readU16 at h
  cases hr1 : readU8 b with
  | mk r1 b1 =>
    simp only [hr1] at h
    cases r1 with
    | error e => simp at h
    | ok hi =>
      cases hr2 : readU8 b1 with
      | mk r2 b2 =>
        simp only [hr2] at h
        cases r2 with
        | error e => simp at h
        | ok lo =>
          have h2 := readU8_ok hr2
          injection h with h3 h4
          rw [← h4, h2.2]
          show b1.pos + 1 ≤ 512
          have h5 := h2.1
          omega

/-- Failed `ReadU16`: the cursor stays, or moved one past the first byte. -/
theorem readU16_error_pos {b : BytePacketBuffer} {e : Err} {b' : BytePacketBuffer}
    (h : readU16 b = (.error e, b')) :
    b'.pos = b.pos ∨ b'.pos = b.pos + 1 := by
  unfold readU16 at h
  cases hr1 : readU8 b with
  | mk r1 b1 =>
    simp only [hr1] at h
    cases r1 with
    | error e1 =>
      injection h with h1 h2
      have h3 := readU8_error hr1
      left
      rw [← h2, h3]
    | ok hi =>
      cases hr2 : readU8 b1 with
      | mk r2 b2 =>
        simp only [hr2] at h
        cases r2 with
        | error e2 =>
          injection h with h1 h2
          have h3 := readU8_error hr2
          have h4 := readU8_ok hr1
          have p1 : b1.pos = b.pos + 1 := by rw [h4.2]
          right
          rw [← h2, h3]
          exact p1
        | ok lo => simp at h

/-- Successful `ReadU32`: the final cursor is within `[0,512]`. -/
theorem readU32_ok_pos {b : BytePacketBuffer} {v : Nat} {b' : BytePacketBuffer}
    (h : readU32 b = (.ok v, b')) : b'.pos ≤ 512 := by
  unfold readU32 at h
  cases hr1 : readU8 b with
  | mk r1 b1 =>
    simp only [hr1] at h
    cases r1 with
    | error e => simp at h
    | ok v1 =>
      cases hr2 : readU8 b1 with
      | mk r2 b2 =>
        simp only [hr2] at h
        cases r2 with
        | error e => simp at h
        | ok v2 =>
          cases hr3 : readU8 b2 with
          | mk r3 b3 =>
            simp only [hr3] at h
            cases r3 with
            | error e => simp at h
            | ok v3 =>
              cases hr4 : readU8 b3 with
              | mk r4 b4 =>
                simp only [hr4] at h
                cases r4 with
                | error e => simp at h
                | ok v4 =>
                  have h2 := readU8_ok hr4
                  injection h with h3 h4
                  rw [← h4, h2.2]
                  show b3.pos + 1 ≤ 512
                  have h5 := h2.1
                  omega

/-- Failed `ReadU32`: the cursor moved past at most the bytes that were
successfully consumed (zero to three). -/
theorem readU32_error_pos {b : BytePacketBuffer} {e : Err} {b' : BytePacketBuffer}
    (h : readU32 b = (.error e, b')) :
    b'.pos = b.pos ∨ b'.pos = b.pos + 1 ∨ b'.pos = b.pos + 2 ∨ b'.pos = b.pos + 3 := by
  unfold readU32 at h
  cases hr1 : readU8 b with
  | mk r1 b1 =>
    simp only [hr1] at h
    cases r1 with
    | error e1 =>
      injection h with h1 h2
      have h3 := readU8_error hr1
      left; rw [← h2, h3]
    | ok v1 =>
      have k1 := readU8_ok hr1
      cases hr2 : readU8 b1 with
      | mk r2 b2 =>
        simp only [hr2] at h
        cases r2 with
        | error e2 =>
          injection h with h1 h2
          have h3 := readU8_error hr2
          have p1 : b1.pos = b.pos + 1 := by rw [k1.2]
          right; left
          rw [← h2, h3]
          exact p1
        | ok v2 =>
          have k2 := readU8_ok hr2
          cases hr3 : readU8 b2 with
          | mk r3 b3 =>
            simp only [hr3] at h
            cases r3 with
            | error e3 =>
              injection h with h1 h2
              have h3 := readU8_error hr3
              have p1 : b1.pos = b.pos + 1 := by rw [k1.2]
              have p2 : b2.pos = b1.pos + 1 := by rw [k2.2]
              right; right; left
              rw [← h2, h3]
              omega
            | ok v3 =>
              have k3 := readU8_ok hr3
              cases hr4 : readU8 b3 with
              | mk r4 b4 =>
                simp only [hr4] at h
                cases r4 with
                | error e4 =>
                  injection h with h1 h2
                  have h3 := readU8_error hr4
                  have p1 : b1.pos = b.pos + 1 := by rw [k1.2]
                  have p2 : b2.pos = b1.pos + 1 := by rw [k2.2]
                  have p3 : b3.pos = b2.pos + 1 := by rw [k3.2]
                  right; right; right
                  rw [← h2, h3]
                  omega
                | ok v4 => simp at h

/-- The record prefix reader sets only the five prefix fields: the payload
fields keep their Go zero values. -/
theorem recordPrefixRead_defaults {b : BytePacketBuffer} {rec : DnsRecord}
    {b' : BytePacketBuffer} (h : recordPrefixRead b = (.ok rec, b')) :
    rec.addr = none ∧ rec.host = "" ∧ rec.priority = 0 := by
  unfold recordPrefixRead at h
  cases hq : readQname b "" with
  | mk r1 b1 =>
    simp only [hq] at h
    cases r1 with
    | error e => simp at h
    | ok name =>
      cases h2 : readU16Query b1 with
      | mk r2 b2 =>
        simp only [h2] at h
        cases r2 with
        | error e => simp at h
        | ok qt =>
          cases h3 : readU16 b2 with
          | mk r3 b3 =>
            simp only [h3] at h
            cases r3 with
            | error e => simp at h
            | ok cl =>
              cases h4 : readU32 b3 with
              | mk r4 b4 =>
                simp only [h4] at h
                cases r4 with
                | error e => simp at h
                | ok ttl =>
                  cases h5 : readU16 b4 with
                  | mk r5 b5 =>
                    simp only [h5] at h
                    cases r5 with
                    | error e => simp at h
                    | ok dl =>
                      injection h with h6 h7
                      injection h6 with h8
                      rw [← h8]
                      exact ⟨rfl, rfl, rfl⟩

-- Claim theorems.

/-- C10: name decoding terminates on every possible buffer content and
cursor position: the loop, run with the fixed fuel of `readQname`, never
exhausts its fuel (pointer chains are cut off by the 5-jump limit and the
local position strictly increases inside the 512-byte region). -/
theorem c10_read_qname_terminates (b : BytePacketBuffer) (init : String) :
    isOutOfFuel (readQname b init).1 = false := by
  show isOutOfFuel (readQnameLoop b.buf 4000 b.pos b.pos init "" false 0).1 = false
  apply readQnameLoop_no_outOfFuel
  have h := posRem_le b.pos
  unfold qnameMeasure
  omega

/-- C5: decoding the uncompressed name `{3}www{7}example{3}com{0}` yields
`"www.example.com"` and leaves the cursor one byte past the terminating
zero (17 bytes past the start of the name), both at offset 0 and at
offset 50. -/
theorem c5_uncompressed_name_eval :
    (readQname { buf := c5buf, pos := 0 } "").1 = .ok "www.example.com" ∧
    (readQname { buf := c5buf, pos := 0 } "").2.pos = 17 ∧
    (readQname { buf := c5buf2, pos := 50 } "").1 = .ok "www.example.com" ∧
    (readQname { buf := c5buf2, pos := 50 } "").2.pos = 67 :=
  ⟨by decide, by decide, by decide, by decide⟩

/-- C1 counterexample: `Get` with the cursor in range but the requested
absolute index at/past 512 performs an out-of-range access (a Go runtime
panic, `Err.outOfRange` in the model) instead of failing with the
end-of-buffer error the claim requires. -/
theorem c1_counterexample_get_panics :
    (get { buf := zeros512, pos := 0 } 512).1 = .error .outOfRange ∧
    (get { buf := zeros512, pos := 300 } 600).1 = .error .outOfRange :=
  ⟨by decide, by decide⟩

/-- C1 amended: `Get` bound-checks the cursor, not the requested index:
with the cursor in range, an index at/past 512 is an out-of-range access
(runtime panic); with the cursor at/past 512 it fails with the
end-of-buffer error for any index; `Read` checks its own target and fails
cleanly at the boundary. -/
theorem c1_amended_get_checks_cursor (b bc : BytePacketBuffer) (i j : Int)
    (h1 : b.pos < 512) (h2 : b.buf.length = 512) (h3 : 512 ≤ i)
    (h4 : 512 ≤ bc.pos) :
    (get b i).1 = .error .outOfRange ∧
    (get bc j).1 = .error .endOfBuffer ∧
    readU8 bc = (.error .endOfBuffer, bc) := by
  refine ⟨?_, ?_, ?_⟩
  · show getL b.buf b.pos i = .error .outOfRange
    unfold getL
    rw [if_neg (by omega : ¬512 ≤ b.pos)]
    have hb : getByte b.buf i = none := by
      unfold getByte
      rw [if_neg (by omega : ¬i < 0)]
      exact List.get?_eq_none.mpr (by omega)
    rw [hb]
  · show getL bc.buf bc.pos j = .error .endOfBuffer
    unfold getL
    rw [if_pos h4]
  · unfold readU8
    rw [if_pos h4]

/-- C1 witness: the amended statement at concrete inputs. -/
theorem c1_witness_get :
    (get { buf := zeros512, pos := 0 } 512).1 = .error .outOfRange ∧
    (get { buf := zeros512, pos := 600 } 0).1 = .error .endOfBuffer ∧
    readU8 { buf := zeros512, pos := 600 }
      = (.error .endOfBuffer, { buf := zeros512, pos := 600 }) :=
  c1_amended_get_checks_cursor { buf := zeros512, pos := 0 }
    { buf := zeros512, pos := 600 } 512 0 (by decide) (by simp [zeros512])
    (by decide) (by decide)

/-- C2: evaluation at the failing inputs.  A flag word with bits 4, 5, 6
set (`0x0070`) decodes to the all-default header — checking-disabled,
authed-data and reserved(Z) all come out false — while a flag word with
bits 12, 13, 14 set (`0x7000`) sets those three flags (and opcode 14 from
the same bits): the decoder reads checking-disabled, authed-data and Z
from bits 12, 13 and 14 instead of bits 4, 5 and 6. -/
theorem c2_flag_bits_eval :
    (headerRead { buf := c2buf, pos := 0 }).1 = .ok newDnsHeader ∧
    (headerRead { buf := c2buf2, pos := 0 }).1 =
      .ok { newDnsHeader with opcode := 14, checkingDisabled := true, authedData := true, z := true } :=
  ⟨by decide, by decide⟩

/-- C6 counterexample: `ReadU16` starting at cursor 511 fails (the second
byte is past the end) but leaves the cursor at 512, not at its value 511
before the call. -/
theorem c6_counterexample_readU16_mutates :
    readU16 { buf := zeros512, pos := 511 } =
      (.error .endOfBuffer, { buf := zeros512, pos := 512 }) := by decide

/-- C6 amended: a failed `Read` leaves the buffer unchanged, but a failed
`ReadU16`/`ReadU32` may leave the cursor advanced past the bytes that were
successfully consumed before the failure (up to 1, resp. 3). -/
theorem c6_amended_failed_reads (b1 b2 b3 : BytePacketBuffer)
    (e1 e2 e3 : Err) (b1' b2' b3' : BytePacketBuffer)
    (h1 : readU8 b1 = (.error e1, b1'))
    (h2 : readU16 b2 = (.error e2, b2'))
    (h3 : readU32 b3 = (.error e3, b3')) :
    b1' = b1 ∧ (b2'.pos = b2.pos ∨ b2'.pos = b2.pos + 1) ∧
    (b3'.pos = b3.pos ∨ b3'.pos = b3.pos + 1 ∨ b3'.pos = b3.pos + 2 ∨
      b3'.pos = b3.pos + 3) :=
  ⟨readU8_error h1, readU16_error_pos h2, readU32_error_pos h3⟩

/-- C6 witness: the amended statement at concrete failing reads. -/
theorem c6_witness_failed_reads :
    ({ buf := zeros512, pos := 512 } : BytePacketBuffer)
        = { buf := zeros512, pos := 512 } ∧
    (({ buf := zeros512, pos := 512 } : BytePacketBuffer).pos
        = ({ buf := zeros512, pos := 511 } : BytePacketBuffer).pos ∨
     ({ buf := zeros512, pos := 512 } : BytePacketBuffer).pos
        = ({ buf := zeros512, pos := 511 } : BytePacketBuffer).pos + 1) ∧
    (({ buf := zeros512, pos := 512 } : BytePacketBuffer).pos
        = ({ buf := zeros512, pos := 509 } : BytePacketBuffer).pos ∨
     ({ buf := zeros512, pos := 512 } : BytePacketBuffer).pos
        = ({ buf := zeros512, pos := 509 } : BytePacketBuffer).pos + 1 ∨
     ({ buf := zeros512, pos := 512 } : BytePacketBuffer).pos
        = ({ buf := zeros512, pos := 509 } : BytePacketBuffer).pos + 2 ∨
     ({ buf := zeros512, pos := 512 } : BytePacketBuffer).pos
        = ({ buf := zeros512, pos := 509 } : BytePacketBuffer).pos + 3) :=
  c6_amended_failed_reads { buf := zeros512, pos := 512 }
    { buf := zeros512, pos := 511 } { buf := zeros512, pos := 509 }
    .endOfBuffer .endOfBuffer .endOfBuffer
    { buf := zeros512, pos := 512 } { buf := zeros512, pos := 512 }
    { buf := zeros512, pos := 512 }
    (by decide) (by decide) (by decide)

/-- C9 counterexample: `Seek` to 600 succeeds and leaves the position at
600, beyond 512 — not as the result of a failed read. -/
theorem c9_counterexample_seek_past_512 :
    (seek { buf := zeros512, pos := 0 } 600).1 = .ok () ∧
    512 < (seek { buf := zeros512, pos := 0 } 600).2.pos :=
  ⟨by decide, by decide⟩

/-- C9 amended: successful `Read`/`ReadU16`/`ReadU32` leave the position
at most 512; `Get` requires the cursor to be in range and, like
`GetRange`, never moves it; but `Seek` and `Step` always succeed and may
place the position anywhere, including beyond 512. -/
theorem c9_amended_invariant (b1 b2 b3 b4 : BytePacketBuffer)
    (v1 v2 v3 v4 : Nat) (b1' b2' b3' : BytePacketBuffer) (i s l p st : Int)
    (h1 : readU8 b1 = (.ok v1, b1'))
    (h2 : readU16 b2 = (.ok v2, b2'))
    (h3 : readU32 b3 = (.ok v3, b3'))
    (h4 : (get b4 i).1 = .ok v4) :
    b1'.pos ≤ 512 ∧ b2'.pos ≤ 512 ∧ b3'.pos ≤ 512 ∧
    (get b4 i).2 = b4 ∧ b4.pos < 512 ∧
    (getRange b4 s l).2 = b4 ∧
    (seek b4 p).1 = .ok () ∧ (seek b4 p).2.pos = p ∧
    (step b4 st).1 = .ok () ∧ (step b4 st).2.pos = b4.pos + st := by
  refine ⟨?_, readU16_ok_pos h2, readU32_ok_pos h3, rfl, ?_, rfl, rfl, rfl, rfl, rfl⟩
  · have k := readU8_ok h1
    rw [k.2]
    show b1.pos + 1 ≤ 512
    have k1 := k.1
    omega
  · have h5 : getL b4.buf b4.pos i = .ok v4 := h4
    exact ((getL_ok_iff b4.buf b4.pos i v4).1 h5).1

/-- C9 witness: the amended statement at concrete inputs. -/
theorem c9_witness_invariant :
    ({ buf := zeros512, pos := 1 } : BytePacketBuffer).pos ≤ 512 ∧
    ({ buf := zeros512, pos := 2 } : BytePacketBuffer).pos ≤ 512 ∧
    ({ buf := zeros512, pos := 4 } : BytePacketBuffer).pos ≤ 512 ∧
    (get { buf := zeros512, pos := 5 } 100).2 = { buf := zeros512, pos := 5 } ∧
    ({ buf := zeros512, pos := 5 } : BytePacketBuffer).pos < 512 ∧
    (getRange { buf := zeros512, pos := 5 } 0 1).2 = { buf := zeros512, pos := 5 } ∧
    (seek { buf := zeros512, pos := 5 } 600).1 = .ok () ∧
    (seek { buf := zeros512, pos := 5 } 600).2.pos = 600 ∧
    (step { buf := zeros512, pos := 5 } 600).1 = .ok () ∧
    (step { buf := zeros512, pos := 5 } 600).2.pos =
      ({ buf := zeros512, pos := 5 } : BytePacketBuffer).pos + 600 :=
  c9_amended_invariant { buf := zeros512, pos := 0 } { buf := zeros512, pos := 0 }
    { buf := zeros512, pos := 0 } { buf := zeros512, pos := 5 }
    0 0 0 0 { buf := zeros512, pos := 1 } { buf := zeros512, pos := 2 }
    { buf := zeros512, pos := 4 } 100 0 1 600 600
    (by decide) (by decide) (by decide) (by decide)

/-- C7: a record whose query type is none of A (1), AAAA (28), CNAME (5),
MX (15) consumes nothing beyond the common prefix — `DnsRecordRead`
returns exactly the prefix result, with the cursor where the data-length
read left it — and its payload fields are the defaults (no address, empty
host, zero priority). -/
theorem c7_unknown_type_record (b : BytePacketBuffer) (rec : DnsRecord)
    (b' : BytePacketBuffer) (h : recordPrefixRead b = (.ok rec, b'))
    (hq1 : rec.qtype ≠ 1) (hq28 : rec.qtype ≠ 28)
    (hq5 : rec.qtype ≠ 5) (hq15 : rec.qtype ≠ 15) :
    dnsRecordRead b = (.ok rec, b') ∧
    rec.addr = none ∧ rec.host = "" ∧ rec.priority = 0 := by
  have hd := recordPrefixRead_defaults h
  refine ⟨?_, hd.1, hd.2.1, hd.2.2⟩
  unfold dnsRecordRead
  simp only [h]
  rw [if_neg hq1, if_neg hq28, if_neg hq5, if_neg hq15]

/-- C7 witness: the theorem at a concrete NS record. -/
theorem c7_witness_ns_record :
    dnsRecordRead { buf := c7buf, pos := 0 } =
      (.ok { name := "a", qtype := 2, cls := 1, ttl := 60, dataLen := 4,
             addr := none, host := "", priority := 0 },
       { buf := c7buf, pos := 13 }) ∧
    ({ name := "a", qtype := 2, cls := 1, ttl := 60, dataLen := 4,
       addr := none, host := "", priority := 0 } : DnsRecord).addr = none ∧
    ({ name := "a", qtype := 2, cls := 1, ttl := 60, dataLen := 4,
       addr := none, host := "", priority := 0 } : DnsRecord).host = "" ∧
    ({ name := "a", qtype := 2, cls := 1, ttl := 60, dataLen := 4,
       addr := none, host := "", priority := 0 } : DnsRecord).priority = 0 :=
  c7_unknown_type_record { buf := c7buf, pos := 0 }
    { name := "a", qtype := 2, cls := 1, ttl := 60, dataLen := 4,
      addr := none, host := "", priority := 0 }
    { buf := c7buf, pos := 13 }
    (by decide) (by decide) (by decide) (by decide) (by decide)

/-- C8 counterexample: parsing the header (2 questions declared) and then
two questions does NOT fail: the second question is read successfully out
of the zero padding. -/
theorem c8_counterexample_fabricated_question :
    (headerRead { buf := c8buf, pos := 0 }).1 = .ok { newDnsHeader with questions := 2 } ∧
    (questionRead (headerRead { buf := c8buf, pos := 0 }).2).1
      = .ok { name := "a", qtype := 1, qclass := 1 } ∧
    (questionRead (questionRead (headerRead { buf := c8buf, pos := 0 }).2).2).1
      = .ok { name := "", qtype := 0, qclass := 0 } :=
  ⟨by decide, by decide, by decide⟩

/-- C8 amended: a header declaring 2 questions over a buffer encoding only
one question parses without error; the second question is fabricated from
the zero padding as the empty name with type 0 and class 0 (an
end-of-buffer failure would occur only if a read passed position 512). -/
theorem c8_amended_padding_parse :
    headerRead { buf := c8buf, pos := 0 }
      = (.ok { newDnsHeader with questions := 2 }, { buf := c8buf, pos := 12 }) ∧
    questionRead { buf := c8buf, pos := 12 }
      = (.ok { name := "a", qtype := 1, qclass := 1 }, { buf := c8buf, pos := 19 }) ∧
    questionRead { buf := c8buf, pos := 19 }
      = (.ok { name := "", qtype := 0, qclass := 0 }, { buf := c8buf, pos := 24 }) :=
  ⟨by decide, by decide, by decide⟩

/-- C3: when the encoded name at the cursor `c` is a compression pointer
(to target `t`), decoding moves the real cursor exactly once, to `c + 2`
(two bytes past the pointer, regardless of any later pointers followed
during the decode), and the decoded text equals the text obtained by
decoding the target name directly. -/
theorem c3_pointer_decode (buf : List Nat) (c t : Int) (l o : Nat) (s s2 : String)
    (hg : getByte buf c = some l) (hl : l &&& 192 = 192)
    (hg2 : getByte buf (c + 1) = some o)
    (ht : t = (((l ^^^ 192) <<< 8) ||| o : Nat))
    (hc : c < 512) (hc2 : c + 2 < 512)
    (hs : (readQname { buf := buf, pos := c } "").1 = .ok s)
    (hs2 : (readQname { buf := buf, pos := t } "").1 = .ok s2) :
    (readQname { buf := buf, pos := c } "").2.pos = c + 2 ∧ s = s2 := by
  have hstep : readQnameLoop buf 4000 c c "" "" false 0
      = readQnameLoop buf 3999 (c + 2) (((l ^^^ 192) <<< 8) ||| o : Nat) "" "" true 1 :=
    readQnameLoop_jump_first buf 4000 3999 (by norm_num) c c "" "" 0 l o
      (by norm_num) hc hg hl hc2 hg2
  rw [← ht] at hstep
  constructor
  · show (readQnameLoop buf 4000 c c "" "" false 0).2 = c + 2
    rw [hstep]
    exact readQnameLoop_jumped_snd buf 3999 (c + 2) t "" "" 1
  · have hs' : (readQnameLoop buf 4000 c c "" "" false 0).1 = .ok s := hs
    rw [hstep] at hs'
    have hs2' : (readQnameLoop buf 4000 t t "" "" false 0).1 = .ok s2 := hs2
    have e1 : readQnameLoop buf 3999 (c + 2) t "" "" true 1
        = (.ok s, (readQnameLoop buf 3999 (c + 2) t "" "" true 1).2) :=
      Prod.ext hs' rfl
    have e2 : readQnameLoop buf 4000 t t "" "" false 0
        = (.ok s2, (readQnameLoop buf 4000 t t "" "" false 0).2) :=
      Prod.ext hs2' rfl
    exact readQnameLoop_str_eq buf 3999 4000 (c + 2) t true false 1 0 t "" "" s s2
      _ _ e1 e2

/-- C3 witness: the theorem at the concrete pointer packet. -/
theorem c3_witness_pointer :
    (readQname { buf := c3buf, pos := 0 } "").2.pos = 0 + 2 ∧
    ("abc" : String) = "abc" :=
  c3_pointer_decode c3buf 0 20 192 20 "abc" "abc"
    (by decide) (by decide) (by decide) (by decide) (by decide) (by decide)
    (by decide) (by decide)

/-- C4: following a chain of 6 compression pointers (positions `p 0` to
`p 5`, each pointing at the next) fails with the jump-limit error (the
cursor resting two bytes past the first pointer), while a chain of exactly
5 pointers whose final target decodes successfully (hypothesis `htail`,
the loop state after the fifth jump) decodes successfully overall. -/
theorem c4_jump_limit_and_five (buf6 : List Nat) (p : Nat → Int) (l o : Nat → Nat)
    (hchain : ∀ i, i < 6 → getByte buf6 (p i) = some (l i) ∧ l i &&& 192 = 192 ∧
      getByte buf6 (p i + 1) = some (o i) ∧ p (i + 1) = (((l i ^^^ 192) <<< 8) ||| o i : Nat))
    (hc : p 0 < 512) (hc2 : p 0 + 2 < 512)
    (buf5 : List Nat) (q : Nat → Int) (m n : Nat → Nat) (s : String) (bp : Int)
    (hchain5 : ∀ i, i < 5 → getByte buf5 (q i) = some (m i) ∧ m i &&& 192 = 192 ∧
      getByte buf5 (q i + 1) = some (n i) ∧ q (i + 1) = (((m i ^^^ 192) <<< 8) ||| n i : Nat))
    (hq : q 0 < 512) (hq2 : q 0 + 2 < 512)
    (htail : readQnameLoop buf5 3995 (q 0 + 2) (q 5) "" "" true 5 = (.ok s, bp)) :
    readQname { buf := buf6, pos := p 0 } ""
      = (.error .jumpLimitExceeded, { buf := buf6, pos := p 0 + 2 }) ∧
    readQname { buf := buf5, pos := q 0 } "" = (.ok s, { buf := buf5, pos := bp }) := by
  constructor
  · have s0 : readQnameLoop buf6 4000 (p 0) (p 0) "" "" false 0
        = readQnameLoop buf6 3999 (p 0 + 2) (p 1) "" "" true 1 := by
      have h := readQnameLoop_jump_first buf6 4000 3999 (by norm_num) (p 0) (p 0) "" "" 0
        (l 0) (o 0) (by norm_num) hc (hchain 0 (by norm_num)).1
        (hchain 0 (by norm_num)).2.1 hc2 (hchain 0 (by norm_num)).2.2.1
      rw [← (hchain 0 (by norm_num)).2.2.2] at h
      exact h
    have s1 : readQnameLoop buf6 3999 (p 0 + 2) (p 1) "" "" true 1
        = readQnameLoop buf6 3998 (p 0 + 2) (p 2) "" "" true 2 := by
      have h := readQnameLoop_jump_next buf6 3999 3998 (by norm_num) (p 0 + 2) (p 1) "" "" 1
        (l 1) (o 1) (by norm_num) (by omega) (hchain 1 (by norm_num)).1
        (hchain 1 (by norm_num)).2.1 (hchain 1 (by norm_num)).2.2.1
      rw [← (hchain 1 (by norm_num)).2.2.2] at h
      exact h
    have s2 : readQnameLoop buf6 3998 (p 0 + 2) (p 2) "" "" true 2
        = readQnameLoop buf6 3997 (p 0 + 2) (p 3) "" "" true 3 := by
      have h := readQnameLoop_jump_next buf6 3998 3997 (by norm_num) (p 0 + 2) (p 2) "" "" 2
        (l 2) (o 2) (by norm_num) (by omega) (hchain 2 (by norm_num)).1
        (hchain 2 (by norm_num)).2.1 (hchain 2 (by norm_num)).2.2.1
      rw [← (hchain 2 (by norm_num)).2.2.2] at h
      exact h
    have s3 : readQnameLoop buf6 3997 (p 0 + 2) (p 3) "" "" true 3
        = readQnameLoop buf6 3996 (p 0 + 2) (p 4) "" "" true 4 := by
      have h := readQnameLoop_jump_next buf6 3997 3996 (by norm_num) (p 0 + 2) (p 3) "" "" 3
        (l 3) (o 3) (by norm_num) (by omega) (hchain 3 (by norm_num)).1
        (hchain 3 (by norm_num)).2.1 (hchain 3 (by norm_num)).2.2.1
      rw [← (hchain 3 (by norm_num)).2.2.2] at h
      exact h
    have s4 : readQnameLoop buf6 3996 (p 0 + 2) (p 4) "" "" true 4
        = readQnameLoop buf6 3995 (p 0 + 2) (p 5) "" "" true 5 := by
      have h := readQnameLoop_jump_next buf6 3996 3995 (by norm_num) (p 0 + 2) (p 4) "" "" 4
        (l 4) (o 4) (by norm_num) (by omega) (hchain 4 (by norm_num)).1
        (hchain 4 (by norm_num)).2.1 (hchain 4 (by norm_num)).2.2.1
      rw [← (hchain 4 (by norm_num)).2.2.2] at h
      exact h
    have s5 : readQnameLoop buf6 3995 (p 0 + 2) (p 5) "" "" true 5
        = readQnameLoop buf6 3994 (p 0 + 2) (p 6) "" "" true 6 := by
      have h := readQnameLoop_jump_next buf6 3995 3994 (by norm_num) (p 0 + 2) (p 5) "" "" 5
        (l 5) (o 5) (by norm_num) (by omega) (hchain 5 (by norm_num)).1
        (hchain 5 (by norm_num)).2.1 (hchain 5 (by norm_num)).2.2.1
      rw [← (hchain 5 (by norm_num)).2.2.2] at h
      exact h
    have s6 : readQnameLoop buf6 3994 (p 0 + 2) (p 6) "" "" true 6
        = (.error .jumpLimitExceeded, p 0 + 2) :=
      readQnameLoop_limit buf6 3994 3993 (by norm_num) (p 0 + 2) (p 6) "" "" true 6
        (by norm_num)
    have total : readQnameLoop buf6 4000 (p 0) (p 0) "" "" false 0
        = (.error .jumpLimitExceeded, p 0 + 2) := by
      rw [s0, s1, s2, s3, s4, s5, s6]
    have e : readQname { buf := buf6, pos := p 0 } ""
        = ((readQnameLoop buf6 4000 (p 0) (p 0) "" "" false 0).1,
           { buf := buf6, pos := (readQnameLoop buf6 4000 (p 0) (p 0) "" "" false 0).2 }) := rfl
    rw [e, total]
  · have t0 : readQnameLoop buf5 4000 (q 0) (q 0) "" "" false 0
        = readQnameLoop buf5 3999 (q 0 + 2) (q 1) "" "" true 1 := by
      have h := readQnameLoop_jump_first buf5 4000 3999 (by norm_num) (q 0) (q 0) "" "" 0
        (m 0) (n 0) (by norm_num) hq (hchain5 0 (by norm_num)).1
        (hchain5 0 (by norm_num)).2.1 hq2 (hchain5 0 (by norm_num)).2.2.1
      rw [← (hchain5 0 (by norm_num)).2.2.2] at h
      exact h
    have t1 : readQnameLoop buf5 3999 (q 0 + 2) (q 1) "" "" true 1
        = readQnameLoop buf5 3998 (q 0 + 2) (q 2) "" "" true 2 := by
      have h := readQnameLoop_jump_next buf5 3999 3998 (by norm_num) (q 0 + 2) (q 1) "" "" 1
        (m 1) (n 1) (by norm_num) (by omega) (hchain5 1 (by norm_num)).1
        (hchain5 1 (by norm_num)).2.1 (hchain5 1 (by norm_num)).2.2.1
      rw [← (hchain5 1 (by norm_num)).2.2.2] at h
      exact h
    have t2 : readQnameLoop buf5 3998 (q 0 + 2) (q 2) "" "" true 2
        = readQnameLoop buf5 3997 (q 0 + 2) (q 3) "" "" true 3 := by
      have h := readQnameLoop_jump_next buf5 3998 3997 (by norm_num) (q 0 + 2) (q 2) "" "" 2
        (m 2) (n 2) (by norm_num) (by omega) (hchain5 2 (by norm_num)).1
        (hchain5 2 (by norm_num)).2.1 (hchain5 2 (by norm_num)).2.2.1
      rw [← (hchain5 2 (by norm_num)).2.2.2] at h
      exact h
    have t3 : readQnameLoop buf5 3997 (q 0 + 2) (q 3) "" "" true 3
        = readQnameLoop buf5 3996 (q 0 + 2) (q 4) "" "" true 4 := by
      have h := readQnameLoop_jump_next buf5 3997 3996 (by norm_num) (q 0 + 2) (q 3) "" "" 3
        (m 3) (n 3) (by norm_num) (by omega) (hchain5 3 (by norm_num)).1
        (hchain5 3 (by norm_num)).2.1 (hchain5 3 (by norm_num)).2.2.1
      rw [← (hchain5 3 (by norm_num)).2.2.2] at h
      exact h
    have t4 : readQnameLoop buf5 3996 (q 0 + 2) (q 4) "" "" true 4
        = readQnameLoop buf5 3995 (q 0 + 2) (q 5) "" "" true 5 := by
      have h := readQnameLoop_jump_next buf5 3996 3995 (by norm_num) (q 0 + 2) (q 4) "" "" 4
        (m 4) (n 4) (by norm_num) (by omega) (hchain5 4 (by norm_num)).1
        (hchain5 4 (by norm_num)).2.1 (hchain5 4 (by norm_num)).2.2.1
      rw [← (hchain5 4 (by norm_num)).2.2.2] at h
      exact h
    have total : readQnameLoop buf5 4000 (q 0) (q 0) "" "" false 0 = (.ok s, bp) := by
      rw [t0, t1, t2, t3, t4, htail]
    have e : readQname { buf := buf5, pos := q 0 } ""
        = ((readQnameLoop buf5 4000 (q 0) (q 0) "" "" false 0).1,
           { buf := buf5, pos := (readQnameLoop buf5 4000 (q 0) (q 0) "" "" false 0).2 }) := rfl
    rw [e, total]

/-- C4 witness: the theorem at the concrete chains — six jumps fail with
the jump-limit error, five jumps decode `"a"`. -/
theorem c4_witness_chains :
    readQname { buf := cbuf6, pos := 0 } ""
      = (.error .jumpLimitExceeded, { buf := cbuf6, pos := 2 }) ∧
    readQname { buf := cbuf5, pos := 0 } "" = (.ok "a", { buf := cbuf5, pos := 2 }) :=
  c4_jump_limit_and_five cbuf6 (fun i => 2 * i) (fun _ => 192) (fun i => 2 * i + 2)
    (by decide) (by decide) (by decide)
    cbuf5 (fun i => (([0, 2, 4, 6, 8, 12].getD i 0 : Nat) : Int)) (fun _ => 192)
    (fun i => [2, 4, 6, 8, 12].getD i 0) "a" 2
    (by decide) (by decide) (by decide) (by decide)
